import Mathlib

/-!
# Verification of the ovn-vif representor plug provider core

Shallow embedding of the port-table / plug-provider core of ovn-vif
(`vif-plug-representor.c`, here `src/unnamed/part_000`) and of the devlink
port-function attribute decoder (`src/lib/netlink-devlink.c`), together with
theorems settling the claims about the natural-language specification.

Modelling conventions:
* C strings are Lean `String`s; machine integers are `Nat` (with explicit
  `% 2 ^ w` where a C truncating conversion occurs); `struct eth_addr` is a
  record of six byte values.
* The three OVS `hmap` indices of `struct port_table` are modelled by one list
  of nodes (newest first, matching `hmap_insert` placing a node at the head of
  its bucket) where each node carries the hash value it was inserted with in
  the `bus_dev` and `mac_vf` maps (an OVS `hmap_node` stores its hash, and
  `HMAP_FOR_EACH_WITH_HASH` filters on stored hash equality before the loop
  body's own field comparisons).  A node's `id` plays the role of its
  address: the C `struct port_node *pf` back pointer becomes `pf : Option Nat`
  holding the id, and dereferencing it is an id lookup (a dangling pointer,
  possible in C after the PF was freed, is a lookup miss).
* The OVS library hash helpers `hash_mac` / `hash_string` are not part of this
  repository; they are modelled from the spec (see their doc comments).  No
  theorem below depends on the numeric values they produce, only on their
  determinism, because every claim is settled through the explicit equality
  filters of the lookup functions.
-/

set_option maxRecDepth 10000

namespace OvnVif

/-- Six-byte Ethernet address, `struct eth_addr`. -/
structure EthAddr where
  b0 : Nat
  b1 : Nat
  b2 : Nat
  b3 : Nat
  b4 : Nat
  b5 : Nat
deriving DecidableEq, Repr

/-- The all-zero Ethernet address `eth_addr_zero`. -/
def ethAddrZero : EthAddr := ⟨0, 0, 0, 0, 0, 0⟩

/-- `eth_addr_is_zero` from OVS packets.h: all six bytes are zero. -/
def eth_addr_is_zero (a : EthAddr) : Bool := decide (a = ethAddrZero)

/-- `enum devlink_port_flavour` members used by the code. -/
inductive Flavour where
  | physical
  | cpu
  | dsa
  | pciPf
  | pciVf
  | virtualPort
  | unused
  | pciSf
deriving DecidableEq, Repr

/-- `enum port_node_source`. -/
inductive PortSource where
  | dump
  | runtime
deriving DecidableEq, Repr

/-- `struct port_node`.  `busDevHash` / `macVfHash` record the hash value the
node was inserted with into `bus_dev_table` / `mac_vf_table` (`none` when the
node is not in that index); `id` stands for the node's address and `pf` for
the `struct port_node *pf` back pointer. -/
structure PortNode where
  id : Nat
  netdevIfindex : Nat
  netdevName : String
  netdevRenamed : Bool
  number : Nat
  flavour : Flavour
  mac : EthAddr
  pf : Option Nat
  source : PortSource
  busDevHash : Option Nat
  macVfHash : Option Nat
deriving DecidableEq, Repr

/-- `struct port_table`: the three hmaps are modelled by `nodes` (newest
first) plus the per-node stored hashes; `macSeed` is the `mac_seed` field and
`nextId` the allocator for node identities (addresses). -/
structure PortTable where
  macSeed : Nat
  nextId : Nat
  nodes : List PortNode
deriving DecidableEq, Repr

/-- `port_table_create`.  The C code draws `mac_seed` from `random_uint32()`;
the seed is a parameter here. -/
def port_table_create (seed : Nat) : PortTable :=
  { macSeed := seed, nextId := 0, nodes := [] }

/-- Modelled from the spec: the OVS `hash_mac` helper (not part of this
repository) "combines the MAC bytes, the VF number, and a process-start
random seed".  Any deterministic combination is faithful for the claims,
which rely on the explicit equality filter, not on hash values. -/
def hash_mac (mac : EthAddr) (vfNum : Nat) (basis : Nat) : Nat :=
  ((((((basis * 256 + mac.b0) * 256 + mac.b1) * 256 + mac.b2) * 256 + mac.b3)
      * 256 + mac.b4) * 256 + mac.b5) * 65536 + vfNum

/-- `port_table_hash_mac_vf`. -/
def port_table_hash_mac_vf (tbl : PortTable) (mac : EthAddr) (vfNum : Nat) :
    Nat :=
  hash_mac mac vfNum tbl.macSeed

/-- Modelled from the spec: the OVS `hash_string` helper (not part of this
repository); a deterministic string hash. -/
def hash_string (s : String) (basis : Nat) : Nat :=
  s.toList.foldl (fun h c => (h * 31 + c.toNat) % 4294967296) basis

/-- `hash_bus_dev`: hashes the string `bus_name/dev_name`; the C builds the
key in a 128-byte buffer with `snprintf`, so it is truncated to 127
characters. -/
def hash_bus_dev (busName devName : String) : Nat :=
  hash_string (String.mk ((busName ++ "/" ++ devName).toList.take 127)) 0

/-- Dereference a node's `pf` pointer and read `pf->mac`; a dangling or null
pointer is a miss. -/
def pfMac (tbl : PortTable) (pn : PortNode) : Option EthAddr :=
  match pn.pf with
  | none => none
  | some pid => (tbl.nodes.find? (fun n => decide (n.id = pid))).map (·.mac)

/-- The per-node filter of `port_table_lookup_ifindex`. -/
def ifindexPred (netdevIfindex : Nat) (n : PortNode) : Bool :=
  decide (n.netdevIfindex = netdevIfindex)

/-- `port_table_lookup_ifindex`: `HMAP_FOR_EACH_WITH_HASH` over the ifindex
table (a node's stored hash there is its immutable `netdev_ifindex`, so the
stored-hash filter and the field comparison coincide). -/
def port_table_lookup_ifindex (tbl : PortTable) (netdevIfindex : Nat) :
    Option PortNode :=
  tbl.nodes.find? (ifindexPred netdevIfindex)

/-- The per-node filter of `port_table_lookup_pf_mac_vf`: stored-hash
bucket filter plus `number == vf_num`, a non-null `pf`, and
`eth_addr_equals(pf->mac, mac)`. -/
def macVfPred (tbl : PortTable) (mac : EthAddr) (vfNum : Nat)
    (n : PortNode) : Bool :=
  decide (n.macVfHash = some (port_table_hash_mac_vf tbl mac vfNum)
    ∧ n.number = vfNum ∧ pfMac tbl n = some mac)

/-- `port_table_lookup_pf_mac_vf`: walk the bucket of
`port_table_hash_mac_vf(tbl, mac, vf_num)` (stored-hash filter) and return
the first node with `number == vf_num`, a non-null `pf`, and
`eth_addr_equals(pf->mac, mac)`. -/
def port_table_lookup_pf_mac_vf (tbl : PortTable) (mac : EthAddr)
    (vfNum : Nat) : Option PortNode :=
  tbl.nodes.find? (macVfPred tbl mac vfNum)

/-- The per-node filter of `port_table_lookup_phy_bus_dev`: stored-hash
bucket filter plus matching `flavour` and `number`. -/
def busDevPred (h : Nat) (flavour : Flavour) (number : Nat)
    (n : PortNode) : Bool :=
  decide (n.busDevHash = some h ∧ n.flavour = flavour ∧ n.number = number)

/-- `port_table_lookup_phy_bus_dev`: walk the bucket of
`hash_bus_dev(bus_name, dev_name)` and return the first node with matching
`flavour` and `number` (the node does not store the strings, so no further
comparison happens). -/
def port_table_lookup_phy_bus_dev (tbl : PortTable) (busName devName : String)
    (flavour : Flavour) (number : Nat) : Option PortNode :=
  tbl.nodes.find? (busDevPred (hash_bus_dev busName devName) flavour number)

/-- `port_node_update`: stores the new name; because `pn->netdev_name` is
always non-null after creation, the C sets `netdev_renamed = true`
unconditionally, whether or not the name differs. -/
def port_node_update (pn : PortNode) (netdevName : String) : PortNode :=
  { pn with netdevName := netdevName, netdevRenamed := true }

/-- `port_node_rename_expected` (the `HAVE_UDEV` build). -/
def port_node_rename_expected (pn : PortNode) : Bool :=
  decide (pn.source = .runtime ∧ pn.netdevRenamed = false)

/-- Replace, in place, every node whose `id` equals `pid` (the C mutates the
found node through its pointer). -/
def replaceNode (tbl : PortTable) (pid : Nat) (pn' : PortNode) : PortTable :=
  { tbl with nodes := tbl.nodes.map (fun n => if n.id = pid then pn' else n) }

/-- The node `port_node_create` builds on the phy path (with
`netdev_renamed = false` and a null `pf`), carrying the `hash_bus_dev` value
`hmap_insert` files it under in `bus_dev_table`. -/
def phy_node_new (tbl : PortTable) (busName devName : String)
    (netdevIfindex : Nat) (netdevName : String) (number : Nat)
    (flavour : Flavour) (mac : EthAddr) (source : PortSource) : PortNode :=
  { id := tbl.nextId
    netdevIfindex := netdevIfindex
    netdevName := netdevName
    netdevRenamed := false
    number := number
    flavour := flavour
    mac := mac
    pf := none
    source := source
    busDevHash := some (hash_bus_dev busName devName)
    macVfHash := none }

/-- `port_table_update_phy__`: insert-or-update a PHYSICAL or PCI_PF node.
On insert, `port_node_create` sets `netdev_renamed = false` and the node is
added to the ifindex and bus_dev maps; on update only `port_node_update`
runs. -/
def port_table_update_phy__ (tbl : PortTable) (busName devName : String)
    (netdevIfindex : Nat) (netdevName : String) (number : Nat)
    (flavour : Flavour) (mac : EthAddr) (source : PortSource) :
    PortTable × PortNode :=
  match port_table_lookup_phy_bus_dev tbl busName devName flavour number with
  | none =>
      let pn := phy_node_new tbl busName devName netdevIfindex netdevName
        number flavour mac source
      ({ tbl with nextId := tbl.nextId + 1, nodes := pn :: tbl.nodes }, pn)
  | some pn =>
      let pn' := port_node_update pn netdevName
      (replaceNode tbl pn.id pn', pn')

/-- The node `port_node_create` builds on the function path (with
`netdev_renamed = false` and `pf` pointing at the owning PF), carrying the
`hash(pf->mac, number)` value `hmap_insert` files it under in
`mac_vf_table`. -/
def function_node_new (tbl : PortTable) (pf : PortNode)
    (netdevIfindex : Nat) (netdevName : String) (number : Nat)
    (flavour : Flavour) (mac : EthAddr) (source : PortSource) : PortNode :=
  { id := tbl.nextId
    netdevIfindex := netdevIfindex
    netdevName := netdevName
    netdevRenamed := false
    number := number
    flavour := flavour
    mac := mac
    pf := some pf.id
    source := source
    busDevHash := none
    macVfHash := some (port_table_hash_mac_vf tbl pf.mac number) }

/-- `port_table_update_function__`: insert-or-update a function (VF) node,
keyed by ifindex; on insert the node joins the ifindex and mac_vf maps, the
latter under `hash(pf->mac, number)`. -/
def port_table_update_function__ (tbl : PortTable) (pf : PortNode)
    (netdevIfindex : Nat) (netdevName : String) (number : Nat)
    (flavour : Flavour) (mac : EthAddr) (source : PortSource) :
    PortTable × PortNode :=
  match port_table_lookup_ifindex tbl netdevIfindex with
  | none =>
      let pn := function_node_new tbl pf netdevIfindex netdevName number
        flavour mac source
      ({ tbl with nextId := tbl.nextId + 1, nodes := pn :: tbl.nodes }, pn)
  | some pn =>
      let pn' := port_node_update pn netdevName
      (replaceNode tbl pn.id pn', pn')

/-- `port_table_update_entry`: PHYSICAL/PCI_PF go to the phy path keyed by
`number` resp. `pci_pf_number`; every other flavour first locates the owning
PF by `(bus, dev, PCI_PF, pci_pf_number)` and is rejected (`NULL`, table
untouched) when the PF is unknown. -/
def port_table_update_entry (tbl : PortTable) (busName devName : String)
    (netdevIfindex : Nat) (netdevName : String) (number pciPfNumber
    pciVfNumber : Nat) (flavour : Flavour) (mac : EthAddr)
    (source : PortSource) : PortTable × Option PortNode :=
  if flavour = .physical ∨ flavour = .pciPf then
    let r := port_table_update_phy__ tbl busName devName netdevIfindex
      netdevName (if flavour = .physical then number else pciPfNumber)
      flavour mac source
    (r.1, some r.2)
  else
    match port_table_lookup_phy_bus_dev tbl busName devName .pciPf
        pciPfNumber with
    | none => (tbl, none)
    | some phy =>
        let r := port_table_update_function__ tbl phy netdevIfindex
          netdevName pciVfNumber flavour mac source
        (r.1, some r.2)

/-- Remove the node with identity `pid` (hmap_remove from every index plus
`port_node_destroy`). -/
def removeNode (tbl : PortTable) (pid : Nat) : PortTable :=
  { tbl with nodes := tbl.nodes.filter (fun n => decide (¬n.id = pid)) }

/-- `port_table_delete_phy__`: no-op (with a warning) when the
`(bus, dev, flavour, number)` lookup misses. -/
def port_table_delete_phy__ (tbl : PortTable) (busName devName : String)
    (number : Nat) (flavour : Flavour) : PortTable :=
  match port_table_lookup_phy_bus_dev tbl busName devName flavour number with
  | none => tbl
  | some phy => removeNode tbl phy.id

/-- `port_table_delete_function__`: locate the VF through
`(pf->mac, pci_vf_number)`; no-op (with a warning) on a miss. -/
def port_table_delete_function__ (tbl : PortTable) (pf : PortNode)
    (pciVfNumber : Nat) : PortTable :=
  match port_table_lookup_pf_mac_vf tbl pf.mac pciVfNumber with
  | none => tbl
  | some pn => removeNode tbl pn.id

/-- `port_table_delete_entry`. -/
def port_table_delete_entry (tbl : PortTable) (busName devName : String)
    (number pciPfNumber pciVfNumber : Nat) (flavour : Flavour) : PortTable :=
  if flavour = .physical ∨ flavour = .pciPf then
    port_table_delete_phy__ tbl busName devName
      (if flavour = .physical then number else pciPfNumber) flavour
  else
    match port_table_lookup_phy_bus_dev tbl busName devName .pciPf
        pciPfNumber with
    | none => tbl
    | some phy => port_table_delete_function__ tbl phy pciVfNumber

/-! ## Devlink layer (`struct dl_port`, monitor loop, dump glue) -/

/-- `UINT32_MAX`, the sentinel for a missing `u32` devlink attribute. -/
def UINT32_MAX : Nat := 4294967295

/-- `UINT16_MAX`, the sentinel for a missing `u16` devlink attribute. -/
def UINT16_MAX : Nat := 65535

/-- The fields of `struct dl_port` the plug provider consumes. -/
structure DlPort where
  busName : String
  devName : String
  netdevIfindex : Nat
  netdevName : String
  number : Nat
  pciPfNumber : Nat
  pciVfNumber : Nat
  flavour : Flavour
  functionEthAddr : EthAddr
deriving DecidableEq, Repr

/-- `port_table_update_devlink_port`.  The sysfs compat reader
`compat_get_host_pf_mac` touches the filesystem, so it enters the model as
the oracle `compat` mapping a PHYSICAL port's netdev name to the MAC it
recovers (`none` = failure).  Unsupported flavours are dropped; a PCI_PF
update with an all-zero function MAC is dropped unless the peer PHYSICAL
port is present and the compat read succeeds, in which case the recovered
MAC is passed to `port_table_update_entry` in place of the zero one. -/
def port_table_update_devlink_port (compat : String → Option EthAddr)
    (tbl : PortTable) (pe : DlPort) (source : PortSource) : PortTable :=
  if ¬(pe.flavour = .physical ∨ pe.flavour = .pciPf ∨ pe.flavour = .pciVf)
  then tbl
  else if pe.flavour = .pciPf ∧ eth_addr_is_zero pe.functionEthAddr = true then
    match port_table_lookup_phy_bus_dev tbl pe.busName pe.devName .physical
        pe.pciPfNumber with
    | none => tbl
    | some phy =>
        match compat phy.netdevName with
        | none => tbl
        | some fallbackMac =>
            (port_table_update_entry tbl pe.busName pe.devName
              pe.netdevIfindex pe.netdevName pe.number pe.pciPfNumber
              pe.pciVfNumber pe.flavour fallbackMac source).1
  else
    (port_table_update_entry tbl pe.busName pe.devName pe.netdevIfindex
      pe.netdevName pe.number pe.pciPfNumber pe.pciVfNumber pe.flavour
      pe.functionEthAddr source).1

/-- `port_table_delete_devlink_port`. -/
def port_table_delete_devlink_port (tbl : PortTable) (pe : DlPort) :
    PortTable :=
  port_table_delete_entry tbl pe.busName pe.devName pe.number pe.pciPfNumber
    pe.pciVfNumber pe.flavour

/-- `DEVLINK_CMD_PORT_NEW` from `enum devlink_command`. -/
def DEVLINK_CMD_PORT_NEW : Nat := 7

/-- `DEVLINK_CMD_PORT_DEL` from `enum devlink_command`. -/
def DEVLINK_CMD_PORT_DEL : Nat := 8

/-- One `nl_sock_recv` outcome on the devlink monitor socket.  The end of the
event list models `EAGAIN` (drain complete).  `msg cmd parsed` carries the
genl command and the result of `nl_dl_parse_port_policy` (`none` = parse
failure, which the loop skips with a warning). -/
inductive DlEvent where
  | enobufs
  | sockErr
  | msg (cmd : Nat) (parsed : Option DlPort)
deriving DecidableEq, Repr

/-- The body of `devlink_monitor_run`'s drain loop, one `DlEvent` at a time:
`ENOBUFS` warns and continues, any other socket error breaks the loop,
`PORT_NEW` with a usable ifindex applies the update and sets `changed`,
`PORT_NEW` with the `UINT32_MAX` ifindex sentinel is skipped, and `PORT_DEL`
applies the delete without touching `changed`. -/
def devlink_monitor_loop (compat : String → Option EthAddr) :
    List DlEvent → PortTable → Bool → PortTable × Bool
  | [], tbl, changed => (tbl, changed)
  | .enobufs :: rest, tbl, changed =>
      devlink_monitor_loop compat rest tbl changed
  | .sockErr :: _, tbl, changed => (tbl, changed)
  | .msg cmd parsed :: rest, tbl, changed =>
      if cmd = DEVLINK_CMD_PORT_NEW ∨ cmd = DEVLINK_CMD_PORT_DEL then
        match parsed with
        | none => devlink_monitor_loop compat rest tbl changed
        | some pe =>
            if cmd = DEVLINK_CMD_PORT_NEW then
              if pe.netdevIfindex = UINT32_MAX then
                devlink_monitor_loop compat rest tbl changed
              else
                devlink_monitor_loop compat rest
                  (port_table_update_devlink_port compat tbl pe .runtime) true
            else
              devlink_monitor_loop compat rest
                (port_table_delete_devlink_port tbl pe) changed
      else devlink_monitor_loop compat rest tbl changed

/-- `devlink_monitor_run`: drain the pending events, returning the table and
the `changed` flag. -/
def devlink_monitor_run (compat : String → Option EthAddr)
    (tbl : PortTable) (events : List DlEvent) : PortTable × Bool :=
  devlink_monitor_loop compat events tbl false

/-! ## strtol and the uevent monitor -/

/-- The whitespace characters `isspace` recognises in the C locale. -/
def isSpaceC (c : Char) : Bool :=
  c = ' ' ∨ c = '\t' ∨ c = '\n' ∨ c = '\x0b' ∨ c = '\x0c' ∨ c = '\r'

/-- Consume a maximal run of decimal digits, returning the accumulated value
and the number of characters consumed (`strtol`'s digit phase). -/
def digitsVal : List Char → Nat → Nat × Nat
  | [], acc => (acc, 0)
  | c :: rest, acc =>
      if c.isDigit then
        let r := digitsVal rest (acc * 10 + (c.toNat - 48))
        (r.1, r.2 + 1)
      else (acc, 0)

/-- The sign-and-digits phase of `strtol(s, &cp, 10)`: value and number of
characters consumed from this point; zero consumed (endptr = nptr) when no
digit follows the optional sign. -/
def strtolSigned (cs : List Char) : Int × Nat :=
  match cs with
  | [] => (0, 0)
  | c :: rest =>
      if c = '-' then
        let r := digitsVal rest 0
        if r.2 = 0 then (0, 0) else (-(r.1 : Int), r.2 + 1)
      else if c = '+' then
        let r := digitsVal rest 0
        if r.2 = 0 then (0, 0) else ((r.1 : Int), r.2 + 1)
      else
        let r := digitsVal cs 0
        if r.2 = 0 then (0, 0) else ((r.1 : Int), r.2)

/-- `strtol(s, &cp, 10)`: returns the parsed value and the index of `cp`
within `s` (0 when no digits were consumed, in which case C leaves
`cp = s`). -/
def strtolDec (s : String) : Int × Nat :=
  let cs := s.toList
  let ws := (cs.takeWhile isSpaceC).length
  let r := strtolSigned (cs.drop ws)
  if r.2 = 0 then (r.1, 0) else (r.1, ws + r.2)

/-- The check both `vif_plug_representor_port_prepare` and
`udev_monitor_run` apply to `strtol`'s end pointer:
`cp && cp != s && *cp != '\0'`. -/
def strtolMalformed (s : String) : Bool :=
  let k := (strtolDec s).2
  decide (k ≠ 0 ∧ k < s.length)

/-- One device delivered by `udev_monitor_receive_device`; `none` fields
model NULL returns of the respective libudev getters.  The end of the event
list models `EAGAIN` / no more devices. -/
structure UdevEvent where
  action : Option String
  ifindexStr : Option String
  sysname : Option String
deriving DecidableEq, Repr

/-- The body of `udev_monitor_run`'s drain loop: only `move` actions with a
well-formed ifindex naming a known port rename that port (via
`port_node_update`) and set `changed`; everything else is skipped. -/
def udev_monitor_loop : List UdevEvent → PortTable → Bool → PortTable × Bool
  | [], tbl, changed => (tbl, changed)
  | ev :: rest, tbl, changed =>
      match ev.action with
      | none => udev_monitor_loop rest tbl changed
      | some action =>
          if action = "move" then
            match ev.ifindexStr with
            | none => udev_monitor_loop rest tbl changed
            | some ifindexStr =>
                match ev.sysname with
                | none => udev_monitor_loop rest tbl changed
                | some sysname =>
                    if strtolMalformed ifindexStr then
                      udev_monitor_loop rest tbl changed
                    else
                      let ifindex :=
                        (((strtolDec ifindexStr).1 % 4294967296).toNat)
                      match port_table_lookup_ifindex tbl ifindex with
                      | none => udev_monitor_loop rest tbl changed
                      | some pn =>
                          udev_monitor_loop rest
                            (replaceNode tbl pn.id
                              (port_node_update pn sysname)) true
          else udev_monitor_loop rest tbl changed

/-- `udev_monitor_run` (the `HAVE_UDEV` build). -/
def udev_monitor_run (tbl : PortTable) (events : List UdevEvent) :
    PortTable × Bool :=
  udev_monitor_loop events tbl false

/-- `vif_plug_representor_run`: drain devlink, then uevents, and combine the
two `changed` flags exactly as the C does — with bitwise `&` (both drains
always execute; the result is the conjunction of the flags). -/
def vif_plug_representor_run (compat : String → Option EthAddr)
    (tbl : PortTable) (dlEvents : List DlEvent)
    (udevEvents : List UdevEvent) : PortTable × Bool :=
  let rd := devlink_monitor_run compat tbl dlEvents
  let ru := udev_monitor_run rd.1 udevEvents
  (ru.1, rd.2 && ru.2)

/-! ## MAC address strings and the prepare entry point -/

/-- Value of a hexadecimal digit character. -/
def hexVal (c : Char) : Option Nat :=
  if c.isDigit then some (c.toNat - 48)
  else if 'a' ≤ c ∧ c ≤ 'f' then some (c.toNat - 87)
  else if 'A' ≤ c ∧ c ≤ 'F' then some (c.toNat - 55)
  else none

/-- One colon-separated group of a MAC string: one or two hex digits
(greedy), returning the byte value and the remaining characters. -/
def parseMacGroup : List Char → Option (Nat × List Char)
  | [] => none
  | c1 :: rest =>
      match hexVal c1 with
      | none => none
      | some h =>
          match rest with
          | c2 :: rest2 =>
              match hexVal c2 with
              | some l => some (h * 16 + l, rest2)
              | none => some (h, rest)
          | [] => some (h, [])

/-- Expect a `':'` separator. -/
def expectColon : List Char → Option (List Char)
  | ':' :: rest => some rest
  | _ => none

/-- Modelled from the spec: `eth_addr_from_string` (OVS packets.h, not part
of this repository) parses "the MAC as standard hex-colon": six
colon-separated groups of hex digits making up the whole string. -/
def eth_addr_from_string (s : String) : Option EthAddr :=
  match parseMacGroup s.toList with
  | none => none
  | some (b0, cs0) =>
  match expectColon cs0 with
  | none => none
  | some cs1 =>
  match parseMacGroup cs1 with
  | none => none
  | some (b1, cs2) =>
  match expectColon cs2 with
  | none => none
  | some cs3 =>
  match parseMacGroup cs3 with
  | none => none
  | some (b2, cs4) =>
  match expectColon cs4 with
  | none => none
  | some cs5 =>
  match parseMacGroup cs5 with
  | none => none
  | some (b3, cs6) =>
  match expectColon cs6 with
  | none => none
  | some cs7 =>
  match parseMacGroup cs7 with
  | none => none
  | some (b4, cs8) =>
  match expectColon cs8 with
  | none => none
  | some cs9 =>
  match parseMacGroup cs9 with
  | none => none
  | some (b5, cs10) =>
  if cs10.isEmpty then some ⟨b0, b1, b2, b3, b4, b5⟩ else none

/-- Lower-case hexadecimal digit character for a value below 16. -/
def hexDigitChar (n : Nat) : Char :=
  match n with
  | 0 => '0' | 1 => '1' | 2 => '2' | 3 => '3' | 4 => '4'
  | 5 => '5' | 6 => '6' | 7 => '7' | 8 => '8' | 9 => '9'
  | 10 => 'a' | 11 => 'b' | 12 => 'c' | 13 => 'd' | 14 => 'e'
  | _ => 'f'

/-- The characters of the canonical `%02x` rendering of one byte. -/
def byteHexChars (b : Nat) : List Char :=
  [hexDigitChar (b / 16), hexDigitChar (b % 16)]

/-- The canonical hex-colon rendering of a MAC (OVS `ETH_ADDR_FMT`,
`"%02x:%02x:%02x:%02x:%02x:%02x"`). -/
def eth_addr_to_string (a : EthAddr) : String :=
  String.mk (byteHexChars a.b0 ++ (':' :: (byteHexChars a.b1
    ++ (':' :: (byteHexChars a.b2 ++ (':' :: (byteHexChars a.b3
    ++ (':' :: (byteHexChars a.b4 ++ (':' :: byteHexChars a.b5))))))))))

/-- Decimal digit character. -/
def decDigitChar (n : Nat) : Char :=
  match n with
  | 0 => '0' | 1 => '1' | 2 => '2' | 3 => '3' | 4 => '4'
  | 5 => '5' | 6 => '6' | 7 => '7' | 8 => '8' | _ => '9'

/-- Decimal digits of `n`, most significant first. -/
def natDecChars (n : Nat) : List Char :=
  if _h : n < 10 then [decDigitChar n]
  else natDecChars (n / 10) ++ [decDigitChar (n % 10)]
decreasing_by
  exact Nat.div_lt_self (by omega) (by omega)

/-- The decimal string of `n`. -/
def natDecString (n : Nat) : String := String.mk (natDecChars n)

/-- `smap_get`: first binding of the key in the option map. -/
def smap_get (options : List (String × String)) (key : String) :
    Option String :=
  (options.find? (fun p => decide (p.1 = key))).map (·.2)

/-- `enum vif_plug_op_type`. -/
inductive PlugOp where
  | add
  | remove
deriving DecidableEq, Repr

/-- Outcome of `vif_plug_representor_port_prepare`: `ok name?` models a
`true` return (`name?` is `ctx_out->name` when a lookup hit filled it,
`none` for the early `PLUG_OP_REMOVE` return); `notFound` models `false`. -/
inductive PrepareResult where
  | ok (name : Option String)
  | notFound
deriving DecidableEq, Repr

/-- The option key `vif-plug:representor:pf-mac`. -/
def optKeyPfMac : String := "vif-plug:representor:pf-mac"

/-- The option key `vif-plug:representor:vf-num`. -/
def optKeyVfNum : String := "vif-plug:representor:vf-num"

/-- `vif_plug_representor_port_prepare`.  `PLUG_OP_REMOVE` returns
immediately; a missing option returns `false` before the drain; then the
pending devlink/uevent messages are drained (`vif_plug_representor_run`), the
MAC option is parsed (failure returns `false` with a warning), the VF number
option goes through `strtol` — a malformed value is only warned about, the
truncated `uint16_t` value is used regardless — and the
`(mac, vf_num)` lookup result's name is returned, or `false` on a miss. -/
def vif_plug_representor_port_prepare (compat : String → Option EthAddr)
    (tbl : PortTable) (dlEvents : List DlEvent)
    (udevEvents : List UdevEvent) (opType : PlugOp) (_lportName : String)
    (lportOptions : List (String × String)) : PortTable × PrepareResult :=
  if opType = .remove then (tbl, .ok none)
  else
    match smap_get lportOptions optKeyPfMac,
        smap_get lportOptions optKeyVfNum with
    | some optPfMac, some optVfNum =>
        let tbl := (vif_plug_representor_run compat tbl dlEvents
          udevEvents).1
        match eth_addr_from_string optPfMac with
        | none => (tbl, .notFound)
        | some pfMacAddr =>
            let vfNum := (((strtolDec optVfNum).1 % 65536).toNat)
            match port_table_lookup_pf_mac_vf tbl pfMacAddr vfNum with
            | none => (tbl, .notFound)
            | some pn => (tbl, .ok (some pn.netdevName))
    | _, _ => (tbl, .notFound)

/-! ## Devlink port-function attribute decoding (`netlink-devlink.c`) -/

/-- `sizeof(struct eth_addr)`. -/
def ETH_ADDR_SIZE : Nat := 6

/-- `sizeof(struct ib_addr)` (an InfiniBand hardware address). -/
def IB_ADDR_SIZE : Nat := 20

/-- The decoded `struct dl_port_function`.  `ethAddr` / `ibAddr` are `none`
when the C leaves the corresponding union-style field untouched. -/
structure DlPortFunction where
  ethAddr : Option (List Nat)
  ibAddr : Option (List Nat)
  state : Nat
  opstate : Nat
deriving DecidableEq, Repr

/-- `nl_dl_parse_port_function` on an already-destructured nested attribute:
`hwAddr` is the payload of `DEVLINK_PORT_FUNCTION_ATTR_HW_ADDR` when
present, `state`/`opstate` the optional `u8` attributes.  A present
hardware-address attribute is accepted when its length is
`sizeof(struct eth_addr)` (6) or `sizeof(struct ib_addr)` (20); any other
length makes the function return `false` (here `none`).  Missing optional
`u8` attributes surface as `(uint8_t)-1 = 255` via `attr_get_up_to_u64`. -/
def nl_dl_parse_port_function (hwAddr : Option (List Nat))
    (state opstate : Option Nat) : Option DlPortFunction :=
  let stateVal := state.getD 255
  let opstateVal := opstate.getD 255
  match hwAddr with
  | some bytes =>
      if bytes.length = ETH_ADDR_SIZE then
        some { ethAddr := some bytes, ibAddr := none, state := stateVal,
               opstate := opstateVal }
      else if bytes.length = IB_ADDR_SIZE then
        some { ethAddr := none, ibAddr := some bytes, state := stateVal,
               opstate := opstateVal }
      else none
  | none =>
      some { ethAddr := some (List.replicate ETH_ADDR_SIZE 0),
             ibAddr := some (List.replicate IB_ADDR_SIZE 0),
             state := stateVal, opstate := opstateVal }

/-! ## Concrete fixtures (the spec's S1/S2 scenarios, `_init_store`) -/

/-- `00:53:00:00:00:00`. -/
def macPhy : EthAddr := ⟨0, 83, 0, 0, 0, 0⟩

/-- `00:53:00:00:00:42`. -/
def mac42 : EthAddr := ⟨0, 83, 0, 0, 0, 66⟩

/-- `00:53:00:00:00:43`. -/
def mac43 : EthAddr := ⟨0, 83, 0, 0, 0, 67⟩

/-- `00:53:00:00:00:51`. -/
def mac51 : EthAddr := ⟨0, 83, 0, 0, 0, 81⟩

/-- `00:53:00:00:10:00`. -/
def macVf0 : EthAddr := ⟨0, 83, 0, 0, 16, 0⟩

/-- The table of scenario S1 / `_init_store`: a PHYSICAL port `p0`
(ifindex 10) and a PCI_PF port `p0hpf` (ifindex 100, MAC
`00:53:00:00:00:42`) on `pci/0000:03:00.0`. -/
def tblS1 : PortTable :=
  (port_table_update_entry
    (port_table_update_entry (port_table_create 7) "pci" "0000:03:00.0" 10
      "p0" 0 UINT16_MAX UINT16_MAX .physical macPhy .dump).1
    "pci" "0000:03:00.0" 100 "p0hpf" UINT32_MAX 0 UINT16_MAX .pciPf mac42
    .dump).1

/-- The table of scenario S2: S1 plus the PCI_VF port `pf0vf0`
(ifindex 1000, VF number 0). -/
def tblS2 : PortTable :=
  (port_table_update_entry tblS1 "pci" "0000:03:00.0" 1000 "pf0vf0"
    UINT32_MAX 0 0 .pciVf macVf0 .runtime).1

/-- The PCI_PF node of `tblS1` / `tblS2`. -/
def pfNodeS1 : PortNode :=
  { id := 1, netdevIfindex := 100, netdevName := "p0hpf",
    netdevRenamed := false, number := 0, flavour := .pciPf, mac := mac42,
    pf := none, source := .dump,
    busDevHash := some (hash_bus_dev "pci" "0000:03:00.0"),
    macVfHash := none }

/-- The PCI_VF node of `tblS2`. -/
def vfNodeS2 : PortNode :=
  { id := 2, netdevIfindex := 1000, netdevName := "pf0vf0",
    netdevRenamed := false, number := 0, flavour := .pciVf, mac := macVf0,
    pf := some 1, source := .runtime, busDevHash := none,
    macVfHash := some (hash_mac mac42 0 7) }

/-- The table with the intended effect of re-applying an update: the record
with identity `pid` gets its `netdev_renamed` flag set and nothing else
changes.  Used to state the amended idempotence claim. -/
def markRenamed (tbl : PortTable) (pid : Nat) : PortTable :=
  { tbl with
    nodes :=
      tbl.nodes.map
        (fun n => if n.id = pid then { n with netdevRenamed := true } else n) }

/-- A table holding only the PHYSICAL port `p0` (scenario S4's start). -/
def tblPhyOnly : PortTable :=
  (port_table_update_entry (port_table_create 7) "pci" "0000:03:00.0" 10
    "p0" 0 UINT16_MAX UINT16_MAX .physical macPhy .dump).1

/-- The PHYSICAL node of `tblPhyOnly` / `tblS1`. -/
def phyNodeS1 : PortNode :=
  { id := 0, netdevIfindex := 10, netdevName := "p0", netdevRenamed := false,
    number := 0, flavour := .physical, mac := macPhy, pf := none,
    source := .dump, busDevHash := some (hash_bus_dev "pci" "0000:03:00.0"),
    macVfHash := none }

/-- A devlink PCI_PF port message with an all-zero function MAC. -/
def dlPfZero : DlPort :=
  ⟨"pci", "0000:03:00.0", 100, "pf0hpf", UINT32_MAX, 0, UINT16_MAX, .pciPf,
   ethAddrZero⟩

/-- A sysfs compat oracle that recovers `00:53:00:00:00:51` for `p0`
(scenario S4). -/
def compat51 : String → Option EthAddr :=
  fun n => if n = "p0" then some mac51 else none

/-- One `PORT_NEW`-style `update_entry` applied to an empty table. -/
def tblOnce : PortTable :=
  (port_table_update_entry (port_table_create 11) "pci" "d0" 10 "p0" 0
    UINT16_MAX UINT16_MAX .physical macPhy .dump).1

/-- The same `update_entry` applied a second time. -/
def tblTwice : PortTable :=
  (port_table_update_entry tblOnce "pci" "d0" 10 "p0" 0 UINT16_MAX
    UINT16_MAX .physical macPhy .dump).1

/-- The PHYSICAL node of `tblOnce`. -/
def phyNodeOnce : PortNode :=
  { id := 0, netdevIfindex := 10, netdevName := "p0", netdevRenamed := false,
    number := 0, flavour := .physical, mac := macPhy, pf := none,
    source := .dump, busDevHash := some (hash_bus_dev "pci" "d0"),
    macVfHash := none }

/-! ## General lemmas -/

theorem find?_eq_of_unique {α : Type _} (p : α → Bool) (l : List α) (a : α)
    (ha : a ∈ l) (hpa : p a = true)
    (hu : ∀ b ∈ l, p b = true → b = a) : l.find? p = some a := by
  induction l with
  | nil => cases ha
  | cons x xs ih =>
      by_cases hx : p x = true
      · have hxa : x = a := hu x (List.mem_cons_self x xs) hx
        subst hxa
        simp [List.find?_cons_of_pos _ hx]
      · have hxa : x ≠ a := fun h => hx (h ▸ hpa)
        have ha' : a ∈ xs := by
          rcases List.mem_cons.mp ha with h | h
          · exact absurd h.symm hxa
          · exact h
        rw [List.find?_cons_of_neg _ (by simpa using hx)]
        exact ih ha' (fun b hb hpb => hu b (List.mem_cons_of_mem _ hb) hpb)

theorem find?_map_comm {α : Type _} (l : List α) (p : α → Bool)
    (g : α → α) (h : ∀ n ∈ l, p (g n) = p n) :
    (l.map g).find? p = (l.find? p).map g := by
  induction l with
  | nil => rfl
  | cons x xs ih =>
      have hx := h x (List.mem_cons_self x xs)
      by_cases hpx : p x = true
      · rw [List.map_cons, List.find?_cons_of_pos _ (hx ▸ hpx),
          List.find?_cons_of_pos _ hpx]
        rfl
      · rw [List.map_cons,
          List.find?_cons_of_neg _ (by simp [hx, hpx]),
          List.find?_cons_of_neg _ (by simpa using hpx)]
        exact ih (fun n hn => h n (List.mem_cons_of_mem _ hn))

theorem eq_of_id_eq {l : List PortNode}
    (hids : (l.map PortNode.id).Nodup) {a b : PortNode}
    (ha : a ∈ l) (hb : b ∈ l) (hid : a.id = b.id) : a = b := by
  induction l with
  | nil => cases ha
  | cons x xs ih =>
      rw [List.map_cons, List.nodup_cons] at hids
      rcases List.mem_cons.mp ha with rfl | ha' <;>
        rcases List.mem_cons.mp hb with rfl | hb'
      · rfl
      · exact absurd (hid ▸ List.mem_map_of_mem PortNode.id hb') hids.1
      · exact absurd (hid ▸ List.mem_map_of_mem PortNode.id ha') hids.1
      · exact ih hids.2 ha' hb'

theorem update_entry_eq_physical (tbl : PortTable) (b d : String) (i : Nat)
    (nm : String) (num pfn vfn : Nat) (mac : EthAddr) (src : PortSource) :
    port_table_update_entry tbl b d i nm num pfn vfn .physical mac src
      = ((port_table_update_phy__ tbl b d i nm num .physical mac src).1,
         some (port_table_update_phy__ tbl b d i nm num .physical mac
           src).2) := by
  simp [port_table_update_entry]

theorem update_entry_eq_pciPf (tbl : PortTable) (b d : String) (i : Nat)
    (nm : String) (num pfn vfn : Nat) (mac : EthAddr) (src : PortSource) :
    port_table_update_entry tbl b d i nm num pfn vfn .pciPf mac src
      = ((port_table_update_phy__ tbl b d i nm pfn .pciPf mac src).1,
         some (port_table_update_phy__ tbl b d i nm pfn .pciPf mac
           src).2) := by
  simp [port_table_update_entry]

theorem update_entry_eq_function (tbl : PortTable) (b d : String) (i : Nat)
    (nm : String) (num pfn vfn : Nat) (flavour : Flavour) (mac : EthAddr)
    (src : PortSource) (h : ¬(flavour = .physical ∨ flavour = .pciPf)) :
    port_table_update_entry tbl b d i nm num pfn vfn flavour mac src
      = match port_table_lookup_phy_bus_dev tbl b d .pciPf pfn with
        | none => (tbl, none)
        | some phy =>
            ((port_table_update_function__ tbl phy i nm vfn flavour mac
               src).1,
             some (port_table_update_function__ tbl phy i nm vfn flavour mac
               src).2) := by
  rw [port_table_update_entry, if_neg h]

/-! ## Claim C7 -/

/-- C7: if `update_entry` is called with flavour PCI_VF and no live PCI_PF
record keyed by `(bus, dev)` (i.e. under `hash_bus_dev busName devName` —
the node stores no strings) with `number = pci_pf_number` exists, the update
is rejected: no record is created, no index is modified, and the table
afterwards equals the table before the call. -/
theorem vf_update_without_pf_rejected (tbl : PortTable)
    (busName devName : String) (netdevIfindex : Nat) (netdevName : String)
    (number pciPfNumber pciVfNumber : Nat) (mac : EthAddr)
    (source : PortSource)
    (hNoPf : ∀ n ∈ tbl.nodes,
      ¬(n.busDevHash = some (hash_bus_dev busName devName)
        ∧ n.flavour = .pciPf ∧ n.number = pciPfNumber)) :
    port_table_update_entry tbl busName devName netdevIfindex netdevName
      number pciPfNumber pciVfNumber .pciVf mac source = (tbl, none) := by
  have hlook : port_table_lookup_phy_bus_dev tbl busName devName .pciPf
      pciPfNumber = none := by
    rw [port_table_lookup_phy_bus_dev, List.find?_eq_none]
    intro n hn
    simpa [busDevPred] using hNoPf n hn
  rw [port_table_update_entry]
  simp [hlook]

theorem vf_update_without_pf_rejected_witness :
    (∀ n ∈ tblS2.nodes,
      ¬(n.busDevHash = some (hash_bus_dev "pci" "0000:03:00.0")
        ∧ n.flavour = Flavour.pciPf ∧ n.number = 1))
    ∧ port_table_update_entry tblS2 "pci" "0000:03:00.0" 1001 "pf1vf0"
        UINT32_MAX 1 0 .pciVf macVf0 .runtime = (tblS2, none) :=
  ⟨by decide,
   vf_update_without_pf_rejected tblS2 "pci" "0000:03:00.0" 1001 "pf1vf0"
     UINT32_MAX 1 0 macVf0 .runtime (by decide)⟩

/-! ## Claim C10 -/

/-- C10: `delete_entry` with a key that matches no live record — for
PHYSICAL/PCI_PF a missed `(bus, dev, flavour, key)` lookup, for any other
flavour either a missing owning PF or (when the PF is found) a missed
`(pf->mac, pci_vf_number)` lookup — leaves the table exactly unchanged. -/
theorem delete_absent_noop (tbl : PortTable) (busName devName : String)
    (number pciPfNumber pciVfNumber : Nat) (flavour : Flavour)
    (hPhy : flavour = .physical ∨ flavour = .pciPf →
      port_table_lookup_phy_bus_dev tbl busName devName flavour
        (if flavour = .physical then number else pciPfNumber) = none)
    (hVf : ¬(flavour = .physical ∨ flavour = .pciPf) →
      Option.all
        (fun pf =>
          decide (port_table_lookup_pf_mac_vf tbl pf.mac pciVfNumber = none))
        (port_table_lookup_phy_bus_dev tbl busName devName .pciPf
          pciPfNumber) = true) :
    port_table_delete_entry tbl busName devName number pciPfNumber
      pciVfNumber flavour = tbl := by
  rw [port_table_delete_entry]
  by_cases h : flavour = .physical ∨ flavour = .pciPf
  · rw [if_pos h, port_table_delete_phy__, hPhy h]
  · rw [if_neg h]
    cases hl : port_table_lookup_phy_bus_dev tbl busName devName .pciPf
        pciPfNumber with
    | none => rfl
    | some pf =>
        have hv := hVf h
        rw [hl] at hv
        have hnone : port_table_lookup_pf_mac_vf tbl pf.mac pciVfNumber
            = none := of_decide_eq_true hv
        simp [port_table_delete_function__, hnone]

theorem delete_absent_noop_witness :
    port_table_delete_entry tblS2 "pci" "0000:03:00.0" UINT32_MAX 0 5
      .pciVf = tblS2 :=
  delete_absent_noop tblS2 "pci" "0000:03:00.0" UINT32_MAX 0 5 .pciVf
    (fun h => absurd h (by decide)) (fun _ => by decide)

/-! ## Claim C6 -/

/-- C6 counterexample: a hardware-address attribute whose payload is 20
bytes long — `sizeof(struct ib_addr)` — is also accepted by
`nl_dl_parse_port_function`, refuting the claim that the decoder accepts
the message only when the payload length equals 6 bytes. -/
theorem port_function_accepts_ib_length_cex :
    (nl_dl_parse_port_function (some (List.replicate 20 1)) none
      none).isSome = true
    ∧ (List.replicate 20 1).length ≠ 6 := by decide

/-- C6 (amended): a present hardware-address sub-attribute is accepted
exactly when its payload length is `sizeof(struct eth_addr)` (6 bytes,
decoded as the Ethernet function MAC) or `sizeof(struct ib_addr)` (20
bytes, decoded as an InfiniBand address); any other length makes
`nl_dl_parse_port_function` — and with it `nl_dl_parse_port_policy` —
reject the message. -/
theorem port_function_hw_addr_length_iff (bytes : List Nat)
    (state opstate : Option Nat) :
    (nl_dl_parse_port_function (some bytes) state opstate).isSome = true
    ↔ (bytes.length = 6 ∨ bytes.length = 20) := by
  rw [nl_dl_parse_port_function]
  by_cases h6 : bytes.length = 6 <;> by_cases h20 : bytes.length = 20 <;>
    simp [ETH_ADDR_SIZE, IB_ADDR_SIZE, h6, h20]

/-! ## Claim C4 -/

/-- C4 counterexample: `tblS1` holds a live PCI_PF record with MAC
`00:53:00:00:00:42`; applying `update_entry` for the same
`(bus, dev, PCI_PF, 0)` with the different non-zero MAC
`00:53:00:00:00:43` leaves the stored MAC at `00:53:00:00:00:42`, refuting
the claim that the record's mac then equals the newly supplied MAC. -/
theorem pf_mac_update_ignored_cex :
    ((port_table_update_entry tblS1 "pci" "0000:03:00.0" 100 "p0hpf"
        UINT32_MAX 0 UINT16_MAX .pciPf mac43 .runtime).2.map (·.mac))
      = some mac42
    ∧ mac43 ≠ mac42 ∧ eth_addr_is_zero mac43 = false := by decide

/-- C4 (amended): when a PCI_PF record for `(bus, dev, PCI_PF,
pci_pf_number)` already exists, `update_entry` only runs
`port_node_update` on it: the netdev name is replaced and `netdev_renamed`
set, and every other field — in particular `mac` — keeps its stored value;
the supplied MAC is ignored. -/
theorem pf_mac_update_keeps_old_mac (tbl : PortTable)
    (busName devName : String) (netdevIfindex : Nat) (netdevName : String)
    (number pciPfNumber pciVfNumber : Nat) (mac : EthAddr)
    (source : PortSource) (pn : PortNode)
    (h : port_table_lookup_phy_bus_dev tbl busName devName .pciPf
      pciPfNumber = some pn) :
    port_table_update_entry tbl busName devName netdevIfindex netdevName
        number pciPfNumber pciVfNumber .pciPf mac source
      = (replaceNode tbl pn.id (port_node_update pn netdevName),
         some (port_node_update pn netdevName))
    ∧ (port_node_update pn netdevName).mac = pn.mac := by
  refine ⟨?_, rfl⟩
  rw [port_table_update_entry, if_pos (Or.inr rfl)]
  rw [port_table_update_phy__]
  simp [h]

theorem pf_mac_update_keeps_old_mac_witness :
    port_table_update_entry tblS1 "pci" "0000:03:00.0" 100 "p0hpf2"
        UINT32_MAX 0 UINT16_MAX .pciPf mac43 .runtime
      = (replaceNode tblS1 pfNodeS1.id (port_node_update pfNodeS1 "p0hpf2"),
         some (port_node_update pfNodeS1 "p0hpf2")) :=
  (pf_mac_update_keeps_old_mac tblS1 "pci" "0000:03:00.0" 100 "p0hpf2"
    UINT32_MAX 0 UINT16_MAX mac43 .runtime pfNodeS1 (by decide)).1

/-! ## Claim C3 -/

/-- C3 does not hold on the code: with both options present and a
well-formed pf-mac, a vf-num option that fails the code's own
`strtol` end-pointer check (here `"0x"`) is only warned about — the
`return false` is missing — and `prepare` goes on to look up with the
truncated `strtol` value `0`, returning the VF's name instead of
not-found.  (A malformed pf-mac does return not-found, also when the map
lacks an option; only the vf-num half of the claim fails.) -/
theorem prepare_malformed_vf_num_not_rejected :
    strtolMalformed "0x" = true
    ∧ (vif_plug_representor_port_prepare (fun _ => none) tblS2 [] [] .add
        "foo1" [(optKeyPfMac, "00:53:00:00:00:42"), (optKeyVfNum, "0x")]).2
      = .ok (some "pf0vf0")
    ∧ (vif_plug_representor_port_prepare (fun _ => none) tblS2 [] [] .add
        "foo1" [(optKeyPfMac, "not-a-mac"), (optKeyVfNum, "0")]).2
      = .notFound := by decide

/-! ## Claim C2 -/

/-- C2 does not hold on the code: `vif_plug_representor_run` combines the
two monitors' `changed` flags with bitwise AND, so a batch containing one
devlink `PORT_NEW` and no uevents changes the table yet `run` returns
`false`; moreover `devlink_monitor_run` never sets `changed` for a
`PORT_DEL`, so a batch containing only a successful `PORT_DEL` also
reports `false` while the table changed. -/
theorem run_misses_single_source_change :
    ((vif_plug_representor_run (fun _ => none) tblS1
        [.msg DEVLINK_CMD_PORT_NEW
          (some ⟨"pci", "0000:03:00.0", 1000, "pf0vf0", UINT32_MAX, 0, 0,
            .pciVf, macVf0⟩)] []).1 ≠ tblS1
      ∧ (vif_plug_representor_run (fun _ => none) tblS1
          [.msg DEVLINK_CMD_PORT_NEW
            (some ⟨"pci", "0000:03:00.0", 1000, "pf0vf0", UINT32_MAX, 0, 0,
              .pciVf, macVf0⟩)] []).2 = false)
    ∧ ((devlink_monitor_run (fun _ => none) tblS2
        [.msg DEVLINK_CMD_PORT_DEL
          (some ⟨"pci", "0000:03:00.0", 1000, "pf0vf0", UINT32_MAX, 0, 0,
            .pciVf, macVf0⟩)]).1 ≠ tblS2
      ∧ (devlink_monitor_run (fun _ => none) tblS2
          [.msg DEVLINK_CMD_PORT_DEL
            (some ⟨"pci", "0000:03:00.0", 1000, "pf0vf0", UINT32_MAX, 0, 0,
              .pciVf, macVf0⟩)]).2 = false) := by decide

/-! ## Projection lemmas for `port_node_update` -/

@[simp]
theorem port_node_update_id (pn : PortNode) (nm : String) :
    (port_node_update pn nm).id = pn.id := rfl

@[simp]
theorem port_node_update_netdevIfindex (pn : PortNode) (nm : String) :
    (port_node_update pn nm).netdevIfindex = pn.netdevIfindex := rfl

@[simp]
theorem port_node_update_netdevName (pn : PortNode) (nm : String) :
    (port_node_update pn nm).netdevName = nm := rfl

@[simp]
theorem port_node_update_netdevRenamed (pn : PortNode) (nm : String) :
    (port_node_update pn nm).netdevRenamed = true := rfl

@[simp]
theorem port_node_update_number (pn : PortNode) (nm : String) :
    (port_node_update pn nm).number = pn.number := rfl

@[simp]
theorem port_node_update_flavour (pn : PortNode) (nm : String) :
    (port_node_update pn nm).flavour = pn.flavour := rfl

@[simp]
theorem port_node_update_mac (pn : PortNode) (nm : String) :
    (port_node_update pn nm).mac = pn.mac := rfl

@[simp]
theorem port_node_update_pf (pn : PortNode) (nm : String) :
    (port_node_update pn nm).pf = pn.pf := rfl

@[simp]
theorem port_node_update_busDevHash (pn : PortNode) (nm : String) :
    (port_node_update pn nm).busDevHash = pn.busDevHash := rfl

@[simp]
theorem port_node_update_macVfHash (pn : PortNode) (nm : String) :
    (port_node_update pn nm).macVfHash = pn.macVfHash := rfl

theorem port_node_update_self (pn : PortNode) (nm : String)
    (h : pn.netdevName = nm) :
    port_node_update pn nm = { pn with netdevRenamed := true } := by
  cases pn
  simp_all [port_node_update]

/-! ## Claim C5 -/

/-- C5 counterexample: `tblS1` already holds the PCI_PF record with MAC
`00:53:00:00:00:42` and the PHYSICAL record `p0`; a zero-MAC PCI_PF update
arrives and the compat reader succeeds with `00:53:00:00:00:51`, yet the
stored PF record's MAC stays `00:53:00:00:00:42` (only its name is
updated), refuting "the stored PF record's mac equals the MAC returned by
the compat reader". -/
theorem compat_mac_not_stored_on_existing_pf_cex :
    ((port_table_lookup_phy_bus_dev
        (port_table_update_devlink_port compat51 tblS1 dlPfZero .runtime)
        "pci" "0000:03:00.0" .pciPf 0).map
          (fun n => (n.mac, n.netdevName))) = some (mac42, "pf0hpf")
    ∧ compat51 "p0" = some mac51 ∧ mac42 ≠ mac51
    ∧ eth_addr_is_zero dlPfZero.functionEthAddr = true := by decide

/-- C5 (amended): when a PCI_PF update arrives with an all-zero function
MAC: if the PHYSICAL record keyed `(bus, dev, PHYSICAL, pci_pf_number)` is
absent, or present but the compat read for its netdev name fails, the
update is dropped and the table is unchanged; if both succeed and no
PCI_PF record for `(bus, dev, PCI_PF, pci_pf_number)` exists yet, the PF
record created by the update carries the compat MAC; if a PF record
already exists, only its name (and renamed flag) change and its MAC is
left as stored; and in every case no PHYSICAL record's `mac` field is
modified. -/
theorem pf_zero_mac_compat_behaviour (compat : String → Option EthAddr)
    (tbl : PortTable) (pe : DlPort) (source : PortSource)
    (hfl : pe.flavour = .pciPf)
    (hz : eth_addr_is_zero pe.functionEthAddr = true) :
    (port_table_lookup_phy_bus_dev tbl pe.busName pe.devName .physical
        pe.pciPfNumber = none →
      port_table_update_devlink_port compat tbl pe source = tbl)
    ∧ (∀ phy, port_table_lookup_phy_bus_dev tbl pe.busName pe.devName
        .physical pe.pciPfNumber = some phy →
      compat phy.netdevName = none →
      port_table_update_devlink_port compat tbl pe source = tbl)
    ∧ (∀ phy fb, port_table_lookup_phy_bus_dev tbl pe.busName pe.devName
        .physical pe.pciPfNumber = some phy →
      compat phy.netdevName = some fb →
      port_table_lookup_phy_bus_dev tbl pe.busName pe.devName .pciPf
        pe.pciPfNumber = none →
      port_table_update_devlink_port compat tbl pe source
        = { tbl with
            nextId := tbl.nextId + 1,
            nodes := phy_node_new tbl pe.busName pe.devName pe.netdevIfindex
              pe.netdevName pe.pciPfNumber .pciPf fb source :: tbl.nodes })
    ∧ (∀ n', n' ∈ (port_table_update_devlink_port compat tbl pe
        source).nodes → n'.flavour = .physical →
      ∃ n ∈ tbl.nodes, n.flavour = .physical ∧ n'.id = n.id
        ∧ n'.mac = n.mac) := by
  have hE : port_table_update_devlink_port compat tbl pe source
      = (match port_table_lookup_phy_bus_dev tbl pe.busName pe.devName
            .physical pe.pciPfNumber with
         | none => tbl
         | some phy =>
             match compat phy.netdevName with
             | none => tbl
             | some fallbackMac =>
                 (port_table_update_entry tbl pe.busName pe.devName
                   pe.netdevIfindex pe.netdevName pe.number pe.pciPfNumber
                   pe.pciVfNumber pe.flavour fallbackMac source).1) := by
    rw [port_table_update_devlink_port, if_neg (by simp [hfl]),
      if_pos ⟨hfl, hz⟩]
  refine ⟨?_, ?_, ?_, ?_⟩
  · intro h
    rw [hE, h]
  · intro phy hphy hc
    rw [hE, hphy]
    simp only [hc]
  · intro phy fb hphy hc hpf
    rw [hE, hphy]
    simp only [hc]
    rw [hfl, update_entry_eq_pciPf]
    simp only [port_table_update_phy__, hpf]
  · intro n' hn' hflav
    rw [hE] at hn'
    cases hphy : port_table_lookup_phy_bus_dev tbl pe.busName pe.devName
        .physical pe.pciPfNumber with
    | none =>
        rw [hphy] at hn'
        exact ⟨n', hn', hflav, rfl, rfl⟩
    | some phy =>
        simp only [hphy] at hn'
        cases hc : compat phy.netdevName with
        | none =>
            simp only [hc] at hn'
            exact ⟨n', hn', hflav, rfl, rfl⟩
        | some fb =>
            simp only [hc] at hn'
            rw [hfl, update_entry_eq_pciPf] at hn'
            cases hpf : port_table_lookup_phy_bus_dev tbl pe.busName
                pe.devName .pciPf pe.pciPfNumber with
            | none =>
                simp only [port_table_update_phy__, hpf] at hn'
                rcases List.mem_cons.mp hn' with rfl | hn''
                · exact absurd hflav (by simp [phy_node_new])
                · exact ⟨n', hn'', hflav, rfl, rfl⟩
            | some pn =>
                simp only [port_table_update_phy__, hpf, replaceNode] at hn'
                rcases List.mem_map.mp hn' with ⟨n, hn, hgn⟩
                by_cases hid : n.id = pn.id
                · rw [if_pos hid] at hgn
                  have hpn : pn.flavour = .pciPf := by
                    have h1 := List.find?_some hpf
                    have h2 := of_decide_eq_true h1
                    exact h2.2.1
                  rw [← hgn] at hflav
                  rw [port_node_update_flavour, hpn] at hflav
                  cases hflav
                · rw [if_neg hid] at hgn
                  subst hgn
                  exact ⟨n, hn, hflav, rfl, rfl⟩

theorem pf_zero_mac_compat_behaviour_witness :
    port_table_update_devlink_port compat51 tblPhyOnly dlPfZero .dump
      = { tblPhyOnly with
          nextId := tblPhyOnly.nextId + 1,
          nodes := phy_node_new tblPhyOnly dlPfZero.busName dlPfZero.devName
            dlPfZero.netdevIfindex dlPfZero.netdevName dlPfZero.pciPfNumber
            .pciPf mac51 .dump :: tblPhyOnly.nodes } :=
  (pf_zero_mac_compat_behaviour compat51 tblPhyOnly dlPfZero .dump rfl
    (by decide)).2.2.1 phyNodeS1 mac51 (by decide) (by decide) (by decide)

/-! ## Claim C9 -/

/-- C9 counterexample: a record is created with `renamed = false`, but a
second `update_entry` carrying the *identical* name `"p0"` flips `renamed`
to `true` (`port_node_update` sets it whenever the old name pointer is
non-null, i.e. on every update), refuting "an update carrying the identical
name leaves renamed unchanged". -/
theorem renamed_set_on_identical_name_cex :
    (port_table_lookup_ifindex tblOnce 10).map
        (fun n => (n.netdevName, n.netdevRenamed)) = some ("p0", false)
    ∧ (port_table_lookup_ifindex tblTwice 10).map
        (fun n => (n.netdevName, n.netdevRenamed)) = some ("p0", true) := by
  decide

/-- C9 (amended): `renamed` is false at creation (both the phy and the
function path), and any subsequent update of an existing record — via the
devlink paths or via a uevent `move` — sets `renamed` to true regardless of
whether the new name differs from the current one. -/
theorem renamed_false_on_create_true_on_update (tbl : PortTable)
    (busName devName : String) (netdevIfindex : Nat)
    (netdevName sysname : String) (key : Nat) (flavour : Flavour)
    (mac : EthAddr) (source : PortSource) (pf : PortNode) (s : String) :
    (port_table_lookup_phy_bus_dev tbl busName devName flavour key = none →
      (port_table_update_phy__ tbl busName devName netdevIfindex netdevName
        key flavour mac source).2.netdevRenamed = false)
    ∧ (∀ pn, port_table_lookup_phy_bus_dev tbl busName devName flavour key
        = some pn →
      (port_table_update_phy__ tbl busName devName netdevIfindex netdevName
        key flavour mac source).2.netdevRenamed = true)
    ∧ (port_table_lookup_ifindex tbl netdevIfindex = none →
      (port_table_update_function__ tbl pf netdevIfindex netdevName key
        flavour mac source).2.netdevRenamed = false)
    ∧ (∀ pn, port_table_lookup_ifindex tbl netdevIfindex = some pn →
      (port_table_update_function__ tbl pf netdevIfindex netdevName key
        flavour mac source).2.netdevRenamed = true)
    ∧ (∀ pn, strtolMalformed s = false →
        (((strtolDec s).1 % 4294967296)).toNat = netdevIfindex →
        port_table_lookup_ifindex tbl netdevIfindex = some pn →
        udev_monitor_run tbl [⟨some "move", some s, some sysname⟩]
          = (replaceNode tbl pn.id (port_node_update pn sysname), true)
          ∧ (port_node_update pn sysname).netdevRenamed = true) := by
  refine ⟨?_, ?_, ?_, ?_, ?_⟩
  · intro h
    simp [port_table_update_phy__, h, phy_node_new]
  · intro pn h
    simp [port_table_update_phy__, h]
  · intro h
    simp [port_table_update_function__, h, function_node_new]
  · intro pn h
    simp [port_table_update_function__, h]
  · intro pn hm hv h
    refine ⟨?_, rfl⟩
    rw [udev_monitor_run, udev_monitor_loop]
    simp only [hm, hv, h]
    rfl

theorem renamed_false_on_create_true_on_update_witness :
    (port_table_update_phy__ (port_table_create 11) "pci" "d0" 10 "p0" 0
        .physical macPhy .dump).2.netdevRenamed = false
    ∧ (port_table_update_phy__ tblOnce "pci" "d0" 10 "p0" 0 .physical
        macPhy .dump).2.netdevRenamed = true
    ∧ (udev_monitor_run tblOnce [⟨some "move", some "10", some "eth7"⟩]
        = (replaceNode tblOnce phyNodeOnce.id
            (port_node_update phyNodeOnce "eth7"), true)) :=
  ⟨(renamed_false_on_create_true_on_update (port_table_create 11) "pci"
      "d0" 10 "p0" "eth7" 0 .physical macPhy .dump phyNodeOnce "10").1
      (by decide),
   (renamed_false_on_create_true_on_update tblOnce "pci" "d0" 10 "p0"
      "eth7" 0 .physical macPhy .dump phyNodeOnce "10").2.1 phyNodeOnce
      (by decide),
   ((renamed_false_on_create_true_on_update tblOnce "pci" "d0" 10 "p0"
      "eth7" 0 .physical macPhy .dump phyNodeOnce "10").2.2.2.2 phyNodeOnce
      (by decide) (by decide) (by decide)).1⟩

/-! ## Claim C8 -/

theorem find?_replace (l : List PortNode) (p : PortNode → Bool)
    (pn pn' : PortNode) (hids : (l.map PortNode.id).Nodup) (hmem : pn ∈ l)
    (hp : p pn' = p pn) :
    (l.map (fun n => if n.id = pn.id then pn' else n)).find? p
      = (l.find? p).map (fun n => if n.id = pn.id then pn' else n) := by
  apply find?_map_comm
  intro n hn
  by_cases hid : n.id = pn.id
  · have hnpn : n = pn := eq_of_id_eq hids hn hmem hid
    rw [if_pos hid, hp, hnpn]
  · rw [if_neg hid]

theorem replace_cons_fresh (tbl : PortTable) (new : PortNode) (nm : String)
    (hfresh : ∀ n ∈ tbl.nodes, n.id < tbl.nextId)
    (hid : new.id = tbl.nextId) (hname : new.netdevName = nm) :
    replaceNode
        { tbl with nextId := tbl.nextId + 1, nodes := new :: tbl.nodes }
        new.id (port_node_update new nm)
      = markRenamed
          { tbl with nextId := tbl.nextId + 1, nodes := new :: tbl.nodes }
          new.id := by
  have hmap : (new :: tbl.nodes).map
        (fun n => if n.id = new.id then port_node_update new nm else n)
      = (new :: tbl.nodes).map
        (fun n => if n.id = new.id then { n with netdevRenamed := true }
          else n) := by
    apply List.map_congr_left
    intro n hn
    rcases List.mem_cons.mp hn with rfl | hn'
    · rw [if_pos rfl, if_pos rfl]
      exact port_node_update_self n nm hname
    · have hne : n.id ≠ new.id := by
        rw [hid]
        exact Nat.ne_of_lt (hfresh n hn')
      rw [if_neg hne, if_neg hne]
  exact congrArg
    (fun ns => ({ macSeed := tbl.macSeed, nextId := tbl.nextId + 1,
                  nodes := ns } : PortTable)) hmap

theorem replace_update_twice (tbl : PortTable) (pn : PortNode)
    (nm : String) :
    replaceNode (replaceNode tbl pn.id (port_node_update pn nm)) pn.id
        (port_node_update (port_node_update pn nm) nm)
      = markRenamed (replaceNode tbl pn.id (port_node_update pn nm))
          pn.id := by
  have hmap : ((tbl.nodes.map
        (fun n => if n.id = pn.id then port_node_update pn nm else n)).map
          (fun m => if m.id = pn.id
            then port_node_update (port_node_update pn nm) nm else m))
      = ((tbl.nodes.map
        (fun n => if n.id = pn.id then port_node_update pn nm else n)).map
          (fun m => if m.id = pn.id then { m with netdevRenamed := true }
            else m)) := by
    apply List.map_congr_left
    intro m hm
    rcases List.mem_map.mp hm with ⟨n, _hn, rfl⟩
    by_cases hid : n.id = pn.id
    · rw [if_pos hid,
        if_pos (show (port_node_update pn nm).id = pn.id by simp),
        if_pos (show (port_node_update pn nm).id = pn.id by simp)]
      rfl
    · rw [if_neg hid, if_neg hid, if_neg hid]
  exact congrArg
    (fun ns => ({ macSeed := tbl.macSeed, nextId := tbl.nextId,
                  nodes := ns } : PortTable)) hmap

theorem update_phy_twice (tbl : PortTable) (b d : String) (i : Nat)
    (nm : String) (key : Nat) (fl : Flavour) (mac : EthAddr)
    (src : PortSource)
    (hfresh : ∀ n ∈ tbl.nodes, n.id < tbl.nextId)
    (hids : (tbl.nodes.map PortNode.id).Nodup) :
    (port_table_update_phy__
        (port_table_update_phy__ tbl b d i nm key fl mac src).1
        b d i nm key fl mac src).1
      = markRenamed (port_table_update_phy__ tbl b d i nm key fl mac src).1
          (port_table_update_phy__ tbl b d i nm key fl mac src).2.id := by
  cases hlook : port_table_lookup_phy_bus_dev tbl b d fl key with
  | none =>
      simp only [port_table_update_phy__, hlook]
      set new := phy_node_new tbl b d i nm key fl mac src with hnew
      have h2 : port_table_lookup_phy_bus_dev
          { tbl with nextId := tbl.nextId + 1, nodes := new :: tbl.nodes }
          b d fl key = some new := by
        rw [port_table_lookup_phy_bus_dev]
        exact List.find?_cons_of_pos _ (by simp [hnew, phy_node_new,
          busDevPred])
      simp only [h2]
      exact replace_cons_fresh tbl new nm hfresh rfl rfl
  | some pn =>
      simp only [port_table_update_phy__, hlook]
      rw [port_table_lookup_phy_bus_dev] at hlook
      have hmem : pn ∈ tbl.nodes := List.mem_of_find?_eq_some hlook
      have h2 : port_table_lookup_phy_bus_dev
          (replaceNode tbl pn.id (port_node_update pn nm)) b d fl key
          = some (port_node_update pn nm) := by
        rw [port_table_lookup_phy_bus_dev, replaceNode]
        rw [find?_replace tbl.nodes
          (busDevPred (hash_bus_dev b d) fl key) pn
          (port_node_update pn nm) hids hmem rfl]
        rw [hlook]
        simp
      simp only [h2]
      exact replace_update_twice tbl pn nm

theorem update_function_twice (tbl : PortTable) (pf pf2 : PortNode)
    (i : Nat) (nm : String) (num : Nat) (fl : Flavour) (mac : EthAddr)
    (src : PortSource)
    (hfresh : ∀ n ∈ tbl.nodes, n.id < tbl.nextId)
    (hids : (tbl.nodes.map PortNode.id).Nodup) :
    (port_table_update_function__
        (port_table_update_function__ tbl pf i nm num fl mac src).1
        pf2 i nm num fl mac src).1
      = markRenamed
          (port_table_update_function__ tbl pf i nm num fl mac src).1
          (port_table_update_function__ tbl pf i nm num fl mac
            src).2.id := by
  cases hlook : port_table_lookup_ifindex tbl i with
  | none =>
      simp only [port_table_update_function__, hlook]
      set new := function_node_new tbl pf i nm num fl mac src with hnew
      have h2 : port_table_lookup_ifindex
          { tbl with nextId := tbl.nextId + 1, nodes := new :: tbl.nodes }
          i = some new := by
        rw [port_table_lookup_ifindex]
        exact List.find?_cons_of_pos _ (by simp [hnew, function_node_new,
          ifindexPred])
      simp only [h2]
      exact replace_cons_fresh tbl new nm hfresh rfl rfl
  | some pn =>
      simp only [port_table_update_function__, hlook]
      rw [port_table_lookup_ifindex] at hlook
      have hmem : pn ∈ tbl.nodes := List.mem_of_find?_eq_some hlook
      have h2 : port_table_lookup_ifindex
          (replaceNode tbl pn.id (port_node_update pn nm)) i
          = some (port_node_update pn nm) := by
        rw [port_table_lookup_ifindex, replaceNode]
        rw [find?_replace tbl.nodes (ifindexPred i) pn
          (port_node_update pn nm) hids hmem rfl]
        rw [hlook]
        simp
      simp only [h2]
      exact replace_update_twice tbl pn nm

theorem lookup_phy_after_function (tbl : PortTable) (pf : PortNode)
    (i : Nat) (nm : String) (num : Nat) (fl : Flavour) (mac : EthAddr)
    (src : PortSource) (b d : String) (fl2 : Flavour) (k : Nat)
    (phy : PortNode) (hids : (tbl.nodes.map PortNode.id).Nodup)
    (hphy : port_table_lookup_phy_bus_dev tbl b d fl2 k = some phy) :
    ∃ phy2, port_table_lookup_phy_bus_dev
        (port_table_update_function__ tbl pf i nm num fl mac src).1
        b d fl2 k = some phy2 := by
  cases hifx : port_table_lookup_ifindex tbl i with
  | none =>
      refine ⟨phy, ?_⟩
      simp only [port_table_update_function__, hifx]
      rw [port_table_lookup_phy_bus_dev]
      rw [List.find?_cons_of_neg _ (by simp [function_node_new,
        busDevPred])]
      rw [port_table_lookup_phy_bus_dev] at hphy
      exact hphy
  | some pn =>
      rw [port_table_lookup_ifindex] at hifx
      have hmem : pn ∈ tbl.nodes := List.mem_of_find?_eq_some hifx
      refine ⟨if phy.id = pn.id then port_node_update pn nm else phy, ?_⟩
      simp only [port_table_update_function__, port_table_lookup_ifindex,
        hifx]
      rw [port_table_lookup_phy_bus_dev, replaceNode]
      rw [find?_replace tbl.nodes
        (busDevPred (hash_bus_dev b d) fl2 k) pn
        (port_node_update pn nm) hids hmem rfl]
      rw [port_table_lookup_phy_bus_dev] at hphy
      rw [hphy]
      rfl

/-- C8 counterexample: applying the same `PORT_NEW`-style `update_entry`
twice to an empty table does not yield the table of applying it once — the
second application sets the record's `renamed` flag (and nothing else), so
the tables differ exactly by `markRenamed`. -/
theorem port_new_twice_not_idempotent_cex :
    tblTwice ≠ tblOnce ∧ tblTwice = markRenamed tblOnce 0 := by decide

/-- C8 (amended): with a deterministic hash seed, applying the same
`PORT_NEW` twice via `update_entry` yields the table of applying it once
except that the affected record's `netdev_renamed` flag is set to true by
the second application (every other field and every other record is
unchanged); when the first application is rejected (`none`), the second is
rejected identically and the table is byte-equal.  Hypotheses: node
identities are below `nextId` and distinct — invariants of every table
built by the operations. -/
theorem port_new_twice_marks_renamed (tbl : PortTable)
    (busName devName : String) (netdevIfindex : Nat) (netdevName : String)
    (number pciPfNumber pciVfNumber : Nat) (flavour : Flavour)
    (mac : EthAddr) (source : PortSource)
    (hfresh : ∀ n ∈ tbl.nodes, n.id < tbl.nextId)
    (hids : (tbl.nodes.map PortNode.id).Nodup) :
    (port_table_update_entry
        (port_table_update_entry tbl busName devName netdevIfindex
          netdevName number pciPfNumber pciVfNumber flavour mac source).1
        busName devName netdevIfindex netdevName number pciPfNumber
        pciVfNumber flavour mac source).1
      = match (port_table_update_entry tbl busName devName netdevIfindex
            netdevName number pciPfNumber pciVfNumber flavour mac
            source).2 with
        | none =>
            (port_table_update_entry tbl busName devName netdevIfindex
              netdevName number pciPfNumber pciVfNumber flavour mac
              source).1
        | some pn =>
            markRenamed (port_table_update_entry tbl busName devName
              netdevIfindex netdevName number pciPfNumber pciVfNumber
              flavour mac source).1 pn.id := by
  by_cases hf : flavour = .physical ∨ flavour = .pciPf
  · rcases hf with rfl | rfl
    · simp only [update_entry_eq_physical]
      exact update_phy_twice tbl busName devName netdevIfindex netdevName
        number .physical mac source hfresh hids
    · simp only [update_entry_eq_pciPf]
      exact update_phy_twice tbl busName devName netdevIfindex netdevName
        pciPfNumber .pciPf mac source hfresh hids
  · rw [update_entry_eq_function tbl busName devName netdevIfindex
      netdevName number pciPfNumber pciVfNumber flavour mac source hf]
    cases hphy : port_table_lookup_phy_bus_dev tbl busName devName .pciPf
        pciPfNumber with
    | none =>
        simp only [hphy]
        rw [update_entry_eq_function tbl busName devName netdevIfindex
          netdevName number pciPfNumber pciVfNumber flavour mac source hf]
        simp only [hphy]
    | some phy =>
        simp only [hphy]
        rw [update_entry_eq_function _ busName devName netdevIfindex
          netdevName number pciPfNumber pciVfNumber flavour mac source hf]
        obtain ⟨phy2, hphy2⟩ := lookup_phy_after_function tbl phy
          netdevIfindex netdevName pciVfNumber flavour mac source busName
          devName .pciPf pciPfNumber phy hids hphy
        simp only [hphy2]
        exact update_function_twice tbl phy phy2 netdevIfindex netdevName
          pciVfNumber flavour mac source hfresh hids

theorem port_new_twice_marks_renamed_witness :
    (port_table_update_entry
        (port_table_update_entry (port_table_create 11) "pci" "d0" 10 "p0"
          0 UINT16_MAX UINT16_MAX .physical macPhy .dump).1
        "pci" "d0" 10 "p0" 0 UINT16_MAX UINT16_MAX .physical macPhy
        .dump).1
      = match (port_table_update_entry (port_table_create 11) "pci" "d0"
            10 "p0" 0 UINT16_MAX UINT16_MAX .physical macPhy .dump).2 with
        | none =>
            (port_table_update_entry (port_table_create 11) "pci" "d0" 10
              "p0" 0 UINT16_MAX UINT16_MAX .physical macPhy .dump).1
        | some pn =>
            markRenamed (port_table_update_entry (port_table_create 11)
              "pci" "d0" 10 "p0" 0 UINT16_MAX UINT16_MAX .physical macPhy
              .dump).1 pn.id :=
  port_new_twice_marks_renamed (port_table_create 11) "pci" "d0" 10 "p0" 0
    UINT16_MAX UINT16_MAX .physical macPhy .dump (by decide) (by decide)

/-! ## Claim C1: string round trips -/

theorem hexVal_hexDigitChar :
    ∀ n : Fin 16, hexVal (hexDigitChar n.val) = some n.val := by decide

theorem parseMacGroup_byte (b : Nat) (hb : b < 256) (rest : List Char) :
    parseMacGroup (byteHexChars b ++ rest) = some (b, rest) := by
  have h1 : hexVal (hexDigitChar (b / 16)) = some (b / 16) :=
    hexVal_hexDigitChar ⟨b / 16, by omega⟩
  have h2 : hexVal (hexDigitChar (b % 16)) = some (b % 16) :=
    hexVal_hexDigitChar ⟨b % 16, by omega⟩
  simp only [byteHexChars, List.cons_append, List.nil_append, parseMacGroup,
    h1, h2]
  have hdm : b / 16 * 16 + b % 16 = b := by omega
  rw [hdm]

theorem parseMacGroup_byte_nil (b : Nat) (hb : b < 256) :
    parseMacGroup (byteHexChars b) = some (b, []) := by
  have h := parseMacGroup_byte b hb []
  simpa using h

theorem expectColon_cons (rest : List Char) :
    expectColon (':' :: rest) = some rest := rfl

theorem eth_addr_from_to_string (a : EthAddr) (h0 : a.b0 < 256)
    (h1 : a.b1 < 256) (h2 : a.b2 < 256) (h3 : a.b3 < 256) (h4 : a.b4 < 256)
    (h5 : a.b5 < 256) :
    eth_addr_from_string (eth_addr_to_string a) = some a := by
  have hl : (eth_addr_to_string a).toList
      = byteHexChars a.b0 ++ (':' :: (byteHexChars a.b1
        ++ (':' :: (byteHexChars a.b2 ++ (':' :: (byteHexChars a.b3
        ++ (':' :: (byteHexChars a.b4
        ++ (':' :: byteHexChars a.b5))))))))) := rfl
  rw [eth_addr_from_string, hl]
  rw [parseMacGroup_byte a.b0 h0]
  simp only [expectColon_cons]
  rw [parseMacGroup_byte a.b1 h1]
  simp only [expectColon_cons]
  rw [parseMacGroup_byte a.b2 h2]
  simp only [expectColon_cons]
  rw [parseMacGroup_byte a.b3 h3]
  simp only [expectColon_cons]
  rw [parseMacGroup_byte a.b4 h4]
  simp only [expectColon_cons]
  rw [parseMacGroup_byte_nil a.b5 h5]
  rfl

theorem decDigitChar_isDigit (n : Nat) : (decDigitChar n).isDigit = true := by
  unfold decDigitChar
  split <;> decide

theorem decDigitChar_toNat :
    ∀ n : Fin 10, (decDigitChar n.val).toNat - 48 = n.val := by decide

theorem natDecChars_mem (n : Nat) :
    ∀ c ∈ natDecChars n, c.isDigit = true := by
  induction n using Nat.strong_induction_on with
  | _ n ih =>
      intro c hc
      rw [natDecChars] at hc
      by_cases h : n < 10
      · rw [dif_pos h] at hc
        rcases List.mem_singleton.mp hc with rfl
        exact decDigitChar_isDigit n
      · rw [dif_neg h] at hc
        rcases List.mem_append.mp hc with h1 | h2
        · exact ih (n / 10) (Nat.div_lt_self (by omega) (by omega)) c h1
        · rcases List.mem_singleton.mp h2 with rfl
          exact decDigitChar_isDigit (n % 10)

theorem natDecChars_ne_nil (n : Nat) : natDecChars n ≠ [] := by
  rw [natDecChars]
  by_cases h : n < 10
  · rw [dif_pos h]
    simp
  · rw [dif_neg h]
    simp

theorem digitsVal_all (cs : List Char) (h : ∀ c ∈ cs, c.isDigit = true) :
    ∀ acc, digitsVal cs acc
      = (cs.foldl (fun a c => a * 10 + (c.toNat - 48)) acc, cs.length) := by
  induction cs with
  | nil => intro acc; rfl
  | cons c rest ih =>
      intro acc
      have hc : c.isDigit = true := h c (List.mem_cons_self _ _)
      rw [digitsVal, if_pos hc,
        ih (fun x hx => h x (List.mem_cons_of_mem _ hx))]
      simp [Nat.add_comm]

theorem foldl_natDecChars (n : Nat) :
    ∀ acc, (natDecChars n).foldl (fun a c => a * 10 + (c.toNat - 48)) acc
      = acc * 10 ^ (natDecChars n).length + n := by
  induction n using Nat.strong_induction_on with
  | _ n ih =>
      intro acc
      rw [natDecChars]
      by_cases h : n < 10
      · rw [dif_pos h]
        simp only [List.foldl_cons, List.foldl_nil, List.length_singleton,
          pow_one]
        rw [decDigitChar_toNat ⟨n, h⟩]
      · rw [dif_neg h]
        rw [List.foldl_append,
          ih (n / 10) (Nat.div_lt_self (by omega) (by omega)) acc]
        simp only [List.foldl_cons, List.foldl_nil, List.length_append,
          List.length_singleton]
        rw [decDigitChar_toNat ⟨n % 10, by omega⟩, pow_succ]
        have hdm : n / 10 * 10 + n % 10 = n := by omega
        calc (acc * 10 ^ (natDecChars (n / 10)).length + n / 10) * 10
              + n % 10
            = acc * (10 ^ (natDecChars (n / 10)).length * 10)
              + (n / 10 * 10 + n % 10) := by ring
          _ = acc * (10 ^ (natDecChars (n / 10)).length * 10) + n := by
              rw [hdm]

theorem strtolDec_natDecString (n : Nat) :
    strtolDec (natDecString n) = ((n : Int), (natDecChars n).length) := by
  have hcs : (natDecString n).toList = natDecChars n := rfl
  cases hface : natDecChars n with
  | nil => exact absurd hface (natDecChars_ne_nil n)
  | cons c rest =>
      have hdig : ∀ x ∈ natDecChars n, x.isDigit = true := natDecChars_mem n
      have hcdig : c.isDigit = true :=
        hdig c (by rw [hface]; exact List.mem_cons_self _ _)
      have hspace : isSpaceC c = false := by
        rw [isSpaceC]
        apply decide_eq_false
        rintro (rfl | rfl | rfl | rfl | rfl | rfl) <;>
          exact absurd hcdig (by decide)
      have hdash : ¬c = '-' := by
        rintro rfl
        exact absurd hcdig (by decide)
      have hplus : ¬c = '+' := by
        rintro rfl
        exact absurd hcdig (by decide)
      have hdv : digitsVal (c :: rest) 0
          = ((c :: rest).foldl (fun a x => a * 10 + (x.toNat - 48)) 0,
             (c :: rest).length) := by
        rw [digitsVal_all (c :: rest) (by rw [← hface]; exact hdig)]
      have hfold : (c :: rest).foldl (fun a x => a * 10 + (x.toNat - 48)) 0
          = n := by
        rw [← hface, foldl_natDecChars]
        simp
      rw [strtolDec]
      simp only [hcs, hface]
      rw [List.takeWhile_cons_of_neg (by simp [hspace])]
      simp only [List.length_nil, List.drop_zero]
      rw [strtolSigned, if_neg hdash, if_neg hplus, hdv]
      simp only [hfold]
      rw [if_neg (by simp), if_neg (by simp)]
      simp [← hface]

theorem vif_run_nil (compat : String → Option EthAddr) (tbl : PortTable) :
    vif_plug_representor_run compat tbl [] [] = (tbl, false) := rfl

/-- C1: in any table where a live PCI_VF record `r` is keyed under
`(M, V)` — it is in the `mac_vf` bucket of `hash(M, V)` (which holds for
every record the operations insert, because a record's `pf->mac` is never
modified after insertion), has `number = V`, its `pf` resolves to a live
record with MAC byte-equal to `M`, and it is the only such record (spec
invariant 6) — `prepare` with op_type Add and options
`{pf-mac: hex-colon string of M, vf-num: decimal string of V}` returns
success with that record's `netdev_name`; and `lookup_pf_mac_vf` only ever
returns a record whose `number` equals the requested VF number and whose
`pf->mac` is byte-equal to the requested MAC (hash collisions are filtered
on retrieval). -/
theorem prepare_option_round_trip (compat : String → Option EthAddr)
    (tbl : PortTable) (lportName : String) (r : PortNode) (M : EthAddr)
    (V : Nat) (hb0 : M.b0 < 256) (hb1 : M.b1 < 256) (hb2 : M.b2 < 256)
    (hb3 : M.b3 < 256) (hb4 : M.b4 < 256) (hb5 : M.b5 < 256)
    (hV : V < 65536) (hmem : r ∈ tbl.nodes)
    (hhash : r.macVfHash = some (port_table_hash_mac_vf tbl M V))
    (hnum : r.number = V) (hpf : pfMac tbl r = some M)
    (huniq : ∀ n ∈ tbl.nodes,
      n.macVfHash = some (port_table_hash_mac_vf tbl M V) → n.number = V →
      pfMac tbl n = some M → n = r) :
    (vif_plug_representor_port_prepare compat tbl [] [] .add lportName
        [(optKeyPfMac, eth_addr_to_string M),
         (optKeyVfNum, natDecString V)]).2
      = .ok (some r.netdevName)
    ∧ (∀ mac vfNum s, port_table_lookup_pf_mac_vf tbl mac vfNum = some s →
        s.number = vfNum ∧ pfMac tbl s = some mac) := by
  constructor
  · rw [vif_plug_representor_port_prepare,
      if_neg (by decide : ¬(PlugOp.add = PlugOp.remove))]
    have hget1 : smap_get [(optKeyPfMac, eth_addr_to_string M),
        (optKeyVfNum, natDecString V)] optKeyPfMac
        = some (eth_addr_to_string M) := by
      rw [smap_get, List.find?_cons_of_pos _ (by simp)]
      rfl
    have hget2 : smap_get [(optKeyPfMac, eth_addr_to_string M),
        (optKeyVfNum, natDecString V)] optKeyVfNum
        = some (natDecString V) := by
      rw [smap_get,
        List.find?_cons_of_neg _ (by simp [optKeyPfMac, optKeyVfNum]),
        List.find?_cons_of_pos _ (by simp)]
      rfl
    simp only [hget1, hget2, vif_run_nil]
    rw [eth_addr_from_to_string M hb0 hb1 hb2 hb3 hb4 hb5]
    simp only [strtolDec_natDecString]
    have hvf : (((V : Nat) : Int) % 65536).toNat = V := by omega
    rw [hvf]
    have hfind : port_table_lookup_pf_mac_vf tbl M V = some r := by
      rw [port_table_lookup_pf_mac_vf]
      apply find?_eq_of_unique _ _ r hmem
      · exact decide_eq_true ⟨hhash, hnum, hpf⟩
      · intro b hb hpb
        have hprops := of_decide_eq_true hpb
        exact huniq b hb hprops.1 hprops.2.1 hprops.2.2
    rw [hfind]
  · intro mac vfNum s hs
    rw [port_table_lookup_pf_mac_vf] at hs
    have hp := List.find?_some hs
    have hprops := of_decide_eq_true hp
    exact ⟨hprops.2.1, hprops.2.2⟩

theorem prepare_option_round_trip_witness :
    (vif_plug_representor_port_prepare (fun _ => none) tblS2 [] [] .add
        "lsp1" [(optKeyPfMac, eth_addr_to_string mac42),
                (optKeyVfNum, natDecString 0)]).2
      = .ok (some "pf0vf0") :=
  (prepare_option_round_trip (fun _ => none) tblS2 "lsp1" vfNodeS2 mac42 0
    (by decide) (by decide) (by decide) (by decide) (by decide) (by decide)
    (by decide) (by decide) (by decide) (by decide) (by decide)
    (by decide)).1

end OvnVif

